import Mathlib

/-!
Verification of the Turing-machine execution engine in
`src/turing_machine.rs` (struct `TuringMachine`, struct `Tape`, enum `Move`).

Shallow embedding conventions:
* Rust `String` symbols and state names are Lean `String`s.
* `VecDeque<String>` is a `List String` whose head is the deque's front
  (`push_front` is `cons`, `pop_front` is `head?`/`tail`).
* `IndexMap<K, V>` is an association list `List (K × V)`; `IndexMap::get`
  is `List.lookup` (keys are unique per level, so the first match is the
  entry).
* The two `panic!` sites in `TuringMachine::step` are modelled as
  `Except.error` carrying the panic message together with the machine's
  state at the moment of the panic (the `steps` field has already been
  incremented there, the `state` and `tape` fields have not been touched).
* `usize`/`u128` counters are `Nat`; the step counter and the ones count
  only ever grow by one at a time, so no wrap-around behaviour is
  observable in the source's intended range.
-/

/-- Embeds `enum Move { L, R, N }` — the head displacement of a transition. -/
inductive Move : Type
  | L : Move
  | R : Move
  | N : Move
deriving DecidableEq, Repr

/-- Embeds `struct Tape { left: VecDeque<String>, center: String, right: VecDeque<String> }`.
The fronts of the deques are the list heads. -/
structure Tape : Type where
  left : List String
  center : String
  right : List String
deriving DecidableEq, Repr

/-- Embeds `Tape::count1s`: fold over `left`, then `center`, then `right`,
adding one for every symbol equal to `"1"`. -/
def Tape.count1s (t : Tape) : Nat :=
  let ones : Nat := t.left.foldl (fun a s => if s = "1" then a + 1 else a) 0
  let ones : Nat := if t.center = "1" then ones + 1 else ones
  t.right.foldl (fun a s => if s = "1" then a + 1 else a) ones

/-- Embeds `Tape::mov`: on `L` the center is pushed onto the front of `right`
and the new center is `left`'s popped front (or `"0"` when `left` is empty);
`R` is symmetric; `N` does nothing. -/
def Tape.mov (t : Tape) (dir : Move) : Tape :=
  if dir = Move.L then
    let right := t.center :: t.right
    match t.left with
    | [] => { left := [], center := "0", right := right }
    | x :: xs => { left := xs, center := x, right := right }
  else if dir = Move.R then
    let left := t.center :: t.left
    match t.right with
    | [] => { left := left, center := "0", right := [] }
    | x :: xs => { left := left, center := x, right := xs }
  else
    t

/-- One row of the transition table: symbol ↦ (writeSymbol, move, nextState),
embedding `IndexMap<String, (String, Move, String)>`. -/
abbrev TableRow : Type := List (String × (String × Move × String))

/-- Embeds `struct TuringMachine { steps, state, table, tape }`. -/
structure TuringMachine : Type where
  steps : Nat
  state : String
  table : List (String × TableRow)
  tape : Tape
deriving DecidableEq, Repr

/-- Embeds `TuringMachine::count1s`, which delegates to `Tape::count1s`. -/
def TuringMachine.count1s (m : TuringMachine) : Nat :=
  m.tape.count1s

/-- Embeds `TuringMachine::step`. When the state is not `"HALT"`: increment
`steps`; look the state up in `table` (missing ⇒ panic `"Error2"`), look the
tape's center up in that row (missing ⇒ panic `"Error1"`); otherwise write the
triple's first component to the center, move by its second component, and set
the state to its third component. When the state is `"HALT"` nothing happens.
A panic is an `Except.error (message, machine-at-panic)`. -/
def TuringMachine.step (m : TuringMachine) :
    Except (String × TuringMachine) TuringMachine :=
  if m.state ≠ "HALT" then
    let m' : TuringMachine := { m with steps := m.steps + 1 }
    match m'.table.lookup m'.state with
    | none => Except.error ("Error2", m')
    | some row =>
      match row.lookup m'.tape.center with
      | none => Except.error ("Error1", m')
      | some next =>
        let tape := { m'.tape with center := next.1 }
        let tape := tape.mov next.2.1
        Except.ok { m' with tape := tape, state := next.2.2 }
  else
    Except.ok m

/-- The panic message produced by `TuringMachine::step`, if it panics. -/
def TuringMachine.stepErrMsg (m : TuringMachine) : Option String :=
  match m.step with
  | Except.error e => some e.1
  | Except.ok _ => none

/-- Iterate `TuringMachine::step` a given number of times, propagating a
panic. -/
def TuringMachine.stepN : TuringMachine → Nat →
    Except (String × TuringMachine) TuringMachine
  | m, 0 => Except.ok m
  | m, n + 1 =>
    match m.step with
    | Except.ok m' => m'.stepN n
    | Except.error e => Except.error e

/-- Embeds `TuringMachine::run` (`while self.state != "HALT" { self.step(); }`)
with explicit fuel: `none` means the fuel ran out with the loop still running,
which is how the unbounded Rust loop's non-termination is observed in the
embedding. -/
def TuringMachine.runFuel : Nat → TuringMachine →
    Option (Except (String × TuringMachine) TuringMachine)
  | 0, m => if m.state = "HALT" then some (Except.ok m) else none
  | fuel + 1, m =>
    if m.state = "HALT" then some (Except.ok m)
    else
      match m.step with
      | Except.ok m' => TuringMachine.runFuel fuel m'
      | Except.error e => some (Except.error e)

/-- Apply a list of moves to a tape, left to right. -/
def Tape.movs : Tape → List Move → Tape
  | t, [] => t
  | t, d :: ds => (t.mov d).movs ds

/-- The move undoing a single move: swap `L` and `R`, keep `N`. -/
def Move.inv : Move → Move
  | Move.L => Move.R
  | Move.R => Move.L
  | Move.N => Move.N

/-- Modelled from the spec: the "exact reverse sequence" of a sequence of
moves — the moves in reverse order, each replaced by its inverse, so that the
head retraces its path. -/
def undoMoves (ms : List Move) : List Move :=
  ms.reverse.map Move.inv

/-- Modelled from the spec: `census(target)` counts the materialized positions
across `left`, `center`, `right` holding `target`. The source implements only
the `"1"` instance (`Tape::count1s`). -/
def Tape.census (t : Tape) (target : String) : Nat :=
  t.left.count target + (if t.center = target then 1 else 0)
    + t.right.count target

deriving instance DecidableEq for Except

/-- Characterization of `step` on a halted machine: the branch guard fails and
the machine is returned unchanged. -/
theorem TuringMachine.step_of_halt (m : TuringMachine) (h : m.state = "HALT") :
    m.step = Except.ok m := by
  simp [TuringMachine.step, h]

/-- Characterization of `step` when the current state is missing from the
table: panic `"Error2"`, with `steps` already incremented. -/
theorem TuringMachine.step_of_missing_state (m : TuringMachine)
    (h1 : m.state ≠ "HALT") (h2 : m.table.lookup m.state = none) :
    m.step = Except.error ("Error2", { m with steps := m.steps + 1 }) := by
  simp [TuringMachine.step, h1, h2]

/-- Characterization of `step` when the state's row is missing an entry for
the symbol under the head: panic `"Error1"`, with `steps` already
incremented. -/
theorem TuringMachine.step_of_missing_symbol (m : TuringMachine) (row : TableRow)
    (h1 : m.state ≠ "HALT") (h2 : m.table.lookup m.state = some row)
    (h3 : row.lookup m.tape.center = none) :
    m.step = Except.error ("Error1", { m with steps := m.steps + 1 }) := by
  simp [TuringMachine.step, h1, h2, h3]

/-- Characterization of `step` when the lookup succeeds: write, move, set the
new state, with `steps` incremented. -/
theorem TuringMachine.step_of_found (m : TuringMachine) (row : TableRow)
    (next : String × Move × String)
    (h1 : m.state ≠ "HALT") (h2 : m.table.lookup m.state = some row)
    (h3 : row.lookup m.tape.center = some next) :
    m.step = Except.ok
      { steps := m.steps + 1
        state := next.2.2
        table := m.table
        tape := Tape.mov { m.tape with center := next.1 } next.2.1 } := by
  simp [TuringMachine.step, h1, h2, h3]

example : Tape.count1s ⟨["1", "0"], "1", ["1"]⟩ = 3 := by decide
example : Tape.mov ⟨[], "1", []⟩ Move.L = ⟨[], "0", ["1"]⟩ := by decide
example : Tape.movs ⟨[], "1", []⟩ ([Move.L] ++ undoMoves [Move.L]) =
    ⟨["0"], "1", []⟩ := by decide
example :
    TuringMachine.step ⟨0, "A", [("A", [("0", ("1", Move.R, "HALT"))])], ⟨[], "0", []⟩⟩ =
    Except.ok ⟨1, "HALT", [("A", [("0", ("1", Move.R, "HALT"))])], ⟨["1"], "0", []⟩⟩ := by
  decide
example : TuringMachine.stepErrMsg ⟨0, "A", [], ⟨[], "0", []⟩⟩ = some "Error2" := by
  decide
example : TuringMachine.stepErrMsg ⟨0, "A", [("A", [])], ⟨[], "0", []⟩⟩ = some "Error1" := by
  decide
example :
    TuringMachine.runFuel 2 ⟨0, "A", [("A", [("0", ("1", Move.R, "A")), ("1", ("0", Move.L, "HALT"))])], ⟨[], "0", ["1"]⟩⟩ =
    some (Except.ok ⟨2, "HALT", [("A", [("0", ("1", Move.R, "A")), ("1", ("0", Move.L, "HALT"))])], ⟨[], "1", ["0"]⟩⟩) := by
  decide

/-- Claim C1: for a machine whose state is not `"HALT"` and whose table has an
entry for the current state containing an entry for the symbol under the head,
`step` increments the step counter by exactly 1, replaces the symbol under the
head with the triple's first element, moves the head per the triple's second
element, and sets the state to the triple's third element. -/
theorem claim1_step_applies_transition (m : TuringMachine) (row : TableRow)
    (next : String × Move × String)
    (h1 : m.state ≠ "HALT") (h2 : m.table.lookup m.state = some row)
    (h3 : row.lookup m.tape.center = some next) :
    m.step = Except.ok
      { steps := m.steps + 1
        state := next.2.2
        table := m.table
        tape := Tape.mov { m.tape with center := next.1 } next.2.1 } :=
  TuringMachine.step_of_found m row next h1 h2 h3

/-- Witness for C1: the single-state flipper applied once from a blank tape. -/
theorem claim1_witness :
    TuringMachine.step ⟨0, "A", [("A", [("0", ("1", Move.R, "A"))])], ⟨[], "0", []⟩⟩ =
      Except.ok ⟨1, "A", [("A", [("0", ("1", Move.R, "A"))])], ⟨["1"], "0", []⟩⟩ :=
  (claim1_step_applies_transition
    ⟨0, "A", [("A", [("0", ("1", Move.R, "A"))])], ⟨[], "0", []⟩⟩
    [("0", ("1", Move.R, "A"))] ("1", Move.R, "A") (by decide) rfl rfl).trans (by decide)

/-- Claim C2: once the state is `"HALT"`, `step` returns the machine unchanged
(state, tape, table, step counter), and repeated `step` calls stay no-ops. -/
theorem claim2_halt_noop (m : TuringMachine) (h : m.state = "HALT") :
    m.step = Except.ok m ∧ ∀ n : Nat, m.stepN n = Except.ok m := by
  refine ⟨TuringMachine.step_of_halt m h, ?_⟩
  intro n
  induction n with
  | zero => rfl
  | succ k ih => simp [TuringMachine.stepN, TuringMachine.step_of_halt m h, ih]

/-- Witness for C2: a concrete halted machine is unchanged by one and by three
steps. -/
theorem claim2_witness :
    TuringMachine.step ⟨5, "HALT", [], ⟨["1"], "0", []⟩⟩ =
      Except.ok ⟨5, "HALT", [], ⟨["1"], "0", []⟩⟩ ∧
    TuringMachine.stepN ⟨5, "HALT", [], ⟨["1"], "0", []⟩⟩ 3 =
      Except.ok ⟨5, "HALT", [], ⟨["1"], "0", []⟩⟩ := by
  have h := claim2_halt_noop ⟨5, "HALT", [], ⟨["1"], "0", []⟩⟩ rfl
  exact ⟨h.1, h.2 3⟩

/-- Claim C3: `mov Left` pushes the center onto the front of `right` and pops
the new center from the front of `left` (blank `"0"` when empty); `mov Right`
is symmetric; `mov None` changes nothing. -/
theorem claim3_mov_semantics (t : Tape) :
    t.mov Move.L = ⟨t.left.tail, t.left.headD "0", t.center :: t.right⟩ ∧
    t.mov Move.R = ⟨t.center :: t.left, t.right.headD "0", t.right.tail⟩ ∧
    t.mov Move.N = t := by
  obtain ⟨l, c, r⟩ := t
  refine ⟨?_, ?_, rfl⟩
  · cases l <;> rfl
  · cases r <;> rfl

/-- Claim C5: with the state not `"HALT"`, `step` panics `"Error2"` exactly
when the state is missing from the table, panics `"Error1"` exactly when the
state's row is missing the symbol under the head, and succeeds otherwise — no
other error condition exists. -/
theorem claim5_error_conditions (m : TuringMachine) (h1 : m.state ≠ "HALT") :
    (m.table.lookup m.state = none →
      m.step = Except.error ("Error2", { m with steps := m.steps + 1 })) ∧
    (∀ row : TableRow, m.table.lookup m.state = some row →
      row.lookup m.tape.center = none →
      m.step = Except.error ("Error1", { m with steps := m.steps + 1 })) ∧
    (∀ (row : TableRow) (next : String × Move × String),
      m.table.lookup m.state = some row →
      row.lookup m.tape.center = some next →
      ∃ m' : TuringMachine, m.step = Except.ok m') := by
  refine ⟨fun h2 => TuringMachine.step_of_missing_state m h1 h2,
    fun row h2 h3 => TuringMachine.step_of_missing_symbol m row h1 h2 h3,
    fun row next h2 h3 => ⟨_, TuringMachine.step_of_found m row next h1 h2 h3⟩⟩

/-- Witness for C5: the three cases at concrete machines — missing state,
missing symbol, and a defined transition. -/
theorem claim5_witness :
    TuringMachine.step ⟨0, "A", [], ⟨[], "0", []⟩⟩ =
      Except.error ("Error2", ⟨1, "A", [], ⟨[], "0", []⟩⟩) ∧
    TuringMachine.step ⟨0, "A", [("A", [])], ⟨[], "0", []⟩⟩ =
      Except.error ("Error1", ⟨1, "A", [("A", [])], ⟨[], "0", []⟩⟩) ∧
    ∃ m' : TuringMachine,
      TuringMachine.step ⟨0, "A", [("A", [("0", ("1", Move.N, "HALT"))])], ⟨[], "0", []⟩⟩ =
        Except.ok m' := by
  refine ⟨(claim5_error_conditions ⟨0, "A", [], ⟨[], "0", []⟩⟩ (by decide)).1 rfl,
    (claim5_error_conditions ⟨0, "A", [("A", [])], ⟨[], "0", []⟩⟩ (by decide)).2.1 [] rfl rfl,
    (claim5_error_conditions ⟨0, "A", [("A", [("0", ("1", Move.N, "HALT"))])], ⟨[], "0", []⟩⟩
      (by decide)).2.2 [("0", ("1", Move.N, "HALT"))] ("1", Move.N, "HALT") rfl rfl⟩

/-- Counterexample for C6: the panic message does not identify the missing
(state, symbol) pair — two machines with different missing pairs panic with
the same message `"Error2"`, so the message determines neither the state nor
the symbol. -/
theorem claim6_counterexample :
    TuringMachine.stepErrMsg ⟨0, "A", [], ⟨[], "0", []⟩⟩ = some "Error2" ∧
    TuringMachine.stepErrMsg ⟨0, "B", [], ⟨[], "1", []⟩⟩ = some "Error2" ∧
    (("A", "0") : String × String) ≠ ("B", "1") :=
  ⟨rfl, rfl, by decide⟩

/-- Claim C6 (amended): on a missing table entry, `step` aborts the run with a
fixed panic message — `"Error2"` when the current state is absent from the
table, `"Error1"` when the state's row lacks the symbol under the head — which
distinguishes the two failure kinds but does not name the missing
(state, symbol) pair. -/
theorem claim6_amended_fixed_panic_messages (m : TuringMachine)
    (h1 : m.state ≠ "HALT") :
    (m.table.lookup m.state = none → m.stepErrMsg = some "Error2") ∧
    (∀ row : TableRow, m.table.lookup m.state = some row →
      row.lookup m.tape.center = none → m.stepErrMsg = some "Error1") := by
  constructor
  · intro h2
    simp [TuringMachine.stepErrMsg, TuringMachine.step_of_missing_state m h1 h2]
  · intro row h2 h3
    simp [TuringMachine.stepErrMsg, TuringMachine.step_of_missing_symbol m row h1 h2 h3]

/-- Witness for the amended C6: both panic messages at concrete machines. -/
theorem claim6_witness :
    TuringMachine.stepErrMsg ⟨0, "Q", [], ⟨[], "0", []⟩⟩ = some "Error2" ∧
    TuringMachine.stepErrMsg ⟨0, "Q", [("Q", [])], ⟨[], "0", []⟩⟩ = some "Error1" :=
  ⟨(claim6_amended_fixed_panic_messages ⟨0, "Q", [], ⟨[], "0", []⟩⟩ (by decide)).1 rfl,
   (claim6_amended_fixed_panic_messages ⟨0, "Q", [("Q", [])], ⟨[], "0", []⟩⟩
     (by decide)).2 [] rfl rfl⟩

/-- Claim C9: the blank symbol is the literal string `"0"` — moving past the
materialized end materializes exactly `"0"` as the new center — and the
ones-count counts the literal string `"1"`. -/
theorem claim9_blank_zero_counts_one :
    (∀ (c : String) (r : List String), Tape.mov ⟨[], c, r⟩ Move.L = ⟨[], "0", c :: r⟩) ∧
    (∀ (c : String) (l : List String), Tape.mov ⟨l, c, []⟩ Move.R = ⟨c :: l, "0", []⟩) ∧
    (∀ s : String, Tape.count1s ⟨[], s, []⟩ = if s = "1" then 1 else 0) := by
  refine ⟨fun _ _ => rfl, fun _ _ => rfl, fun s => ?_⟩
  by_cases hs : s = "1" <;> simp [Tape.count1s, hs]

/-- Claim C10: `step` increments the step counter before the table lookups —
at the moment of either panic the counter has already been incremented by 1
while the state, tape, and table are unchanged. -/
theorem claim10_steps_incremented_at_panic (m : TuringMachine)
    (h : m.state ≠ "HALT") (msg : String) (mErr : TuringMachine)
    (he : m.step = Except.error (msg, mErr)) :
    mErr.steps = m.steps + 1 ∧ mErr.state = m.state ∧
    mErr.tape = m.tape ∧ mErr.table = m.table := by
  rcases h2 : m.table.lookup m.state with _ | row
  · rw [TuringMachine.step_of_missing_state m h h2] at he
    simp only [Except.error.injEq, Prod.mk.injEq] at he
    rw [← he.2]
    exact ⟨rfl, rfl, rfl, rfl⟩
  · rcases h3 : row.lookup m.tape.center with _ | next
    · rw [TuringMachine.step_of_missing_symbol m row h h2 h3] at he
      simp only [Except.error.injEq, Prod.mk.injEq] at he
      rw [← he.2]
      exact ⟨rfl, rfl, rfl, rfl⟩
    · rw [TuringMachine.step_of_found m row next h h2 h3] at he
      exact absurd he (by simp)

/-- Witness for C10: a machine with an empty table panics with the counter at
1 and everything else untouched. -/
theorem claim10_witness :
    (⟨1, "A", [], ⟨[], "0", []⟩⟩ : TuringMachine).steps = 0 + 1 ∧
    (⟨1, "A", [], ⟨[], "0", []⟩⟩ : TuringMachine).state = "A" ∧
    (⟨1, "A", [], ⟨[], "0", []⟩⟩ : TuringMachine).tape = ⟨[], "0", []⟩ ∧
    (⟨1, "A", [], ⟨[], "0", []⟩⟩ : TuringMachine).table = [] :=
  claim10_steps_incremented_at_panic ⟨0, "A", [], ⟨[], "0", []⟩⟩ (by decide) "Error2"
    ⟨1, "A", [], ⟨[], "0", []⟩⟩ rfl

/-- The accumulator form of the counting loops in `Tape::count1s`. -/
theorem foldl_count_one (l : List String) (n : Nat) :
    l.foldl (fun a s => if s = "1" then a + 1 else a) n = n + l.count "1" := by
  induction l generalizing n with
  | nil => simp
  | cons x xs ih =>
    by_cases hx : x = "1"
    all_goals simp [List.foldl_cons, ih, List.count_cons, hx]
    all_goals omega

/-- Claim C4: the ones count equals exactly the number of materialized
positions across `left`, `center`, `right` holding `"1"` (unmaterialized
positions contribute nothing), and it is bounded by the materialized length,
so the `u128` result type cannot overflow. -/
theorem claim4_count1s_exact (m : TuringMachine) :
    m.count1s = m.tape.left.count "1"
        + (if m.tape.center = "1" then 1 else 0) + m.tape.right.count "1" ∧
    m.count1s ≤ m.tape.left.length + 1 + m.tape.right.length := by
  have hL := List.count_le_length (l := m.tape.left) (a := "1")
  have hR := List.count_le_length (l := m.tape.right) (a := "1")
  constructor
  · by_cases hc : m.tape.center = "1"
    all_goals simp [TuringMachine.count1s, Tape.count1s, foldl_count_one, hc]
  · by_cases hc : m.tape.center = "1"
    all_goals simp [TuringMachine.count1s, Tape.count1s, foldl_count_one, hc]
    all_goals omega

/-- `movs` distributes over list append. -/
theorem Tape.movs_append (ms ns : List Move) :
    ∀ t : Tape, t.movs (ms ++ ns) = (t.movs ms).movs ns := by
  induction ms with
  | nil => intro t; rfl
  | cons d ds ih => intro t; simp [Tape.movs, ih]

/-- Undoing one move on a tape already extended by trailing blanks restores
the original tape up to trailing blanks: moving off a materialized end and
back materializes one `"0"` at that end. -/
theorem Tape.mov_inv_extended (t : Tape) (d : Move) (a b : Nat) :
    ∃ a' b' : Nat,
      Tape.mov ⟨(t.mov d).left ++ List.replicate a "0", (t.mov d).center,
          (t.mov d).right ++ List.replicate b "0"⟩ d.inv =
        ⟨t.left ++ List.replicate a' "0", t.center,
          t.right ++ List.replicate b' "0"⟩ := by
  obtain ⟨l, c, r⟩ := t
  cases d with
  | L =>
    cases l with
    | nil => exact ⟨a + 1, b, by simp [Tape.mov, Move.inv, List.replicate_succ]⟩
    | cons x xs => exact ⟨a, b, by simp [Tape.mov, Move.inv]⟩
  | R =>
    cases r with
    | nil => exact ⟨a, b + 1, by simp [Tape.mov, Move.inv, List.replicate_succ]⟩
    | cons x xs => exact ⟨a, b, by simp [Tape.mov, Move.inv]⟩
  | N => exact ⟨a, b, by simp [Tape.mov, Move.inv]⟩

/-- A move sequence followed by its inverse reversal restores the tape up to
trailing blanks materialized at the outer ends of the two deques. -/
theorem Tape.movs_undo (ms : List Move) :
    ∀ t : Tape, ∃ a b : Nat,
      t.movs (ms ++ undoMoves ms) =
        ⟨t.left ++ List.replicate a "0", t.center,
          t.right ++ List.replicate b "0"⟩ := by
  induction ms with
  | nil => intro t; exact ⟨0, 0, by simp [Tape.movs, undoMoves]⟩
  | cons d ds ih =>
    intro t
    have hu : undoMoves (d :: ds) = undoMoves ds ++ [d.inv] := by simp [undoMoves]
    obtain ⟨a, b, hab⟩ := ih (t.mov d)
    obtain ⟨a', b', hab'⟩ := Tape.mov_inv_extended t d a b
    refine ⟨a', b', ?_⟩
    calc t.movs ((d :: ds) ++ undoMoves (d :: ds))
        = (t.mov d).movs ((ds ++ undoMoves ds) ++ [d.inv]) := by
          rw [hu]; simp [Tape.movs]
      _ = ((t.mov d).movs (ds ++ undoMoves ds)).mov d.inv := by
          rw [Tape.movs_append]; rfl
      _ = Tape.mov ⟨(t.mov d).left ++ List.replicate a "0", (t.mov d).center,
            (t.mov d).right ++ List.replicate b "0"⟩ d.inv := by rw [hab]
      _ = ⟨t.left ++ List.replicate a' "0", t.center,
            t.right ++ List.replicate b' "0"⟩ := hab'

/-- `Tape::count1s` is the census of the symbol `"1"`. -/
theorem Tape.count1s_eq_census (t : Tape) : t.count1s = t.census "1" := by
  by_cases hc : t.center = "1"
  all_goals simp [Tape.count1s, Tape.census, foldl_count_one, hc]

/-- Counterexample for C7: every position the reverse pass visits was already
visited by the forward pass, so the set of positions "visited only via the
reverse pass" is empty and the claim as stated requires the tape to come back
unchanged; but moving left off the materialized end and back materializes the
blank `"0"` (a cell visited in both passes), so the resulting tape differs
from the original. -/
theorem claim7_counterexample :
    Tape.movs ⟨[], "1", []⟩ ([Move.L] ++ undoMoves [Move.L]) = ⟨["0"], "1", []⟩ ∧
    Tape.movs ⟨[], "1", []⟩ ([Move.L] ++ undoMoves [Move.L]) ≠ ⟨[], "1", []⟩ := by
  exact ⟨by decide, by decide⟩

/-- Claim C7 (amended): for any tape and any move sequence followed by its
exact reverse sequence, the resulting tape equals the original except that
previously unmaterialized blank positions visited by the passes become
explicitly materialized `"0"`s at the outer ends of the deques; the census of
every non-blank symbol — in particular the ones count — is unchanged. -/
theorem claim7_amended_move_round_trip (t : Tape) (ms : List Move) :
    (∃ a b : Nat,
      t.movs (ms ++ undoMoves ms) =
        ⟨t.left ++ List.replicate a "0", t.center,
          t.right ++ List.replicate b "0"⟩) ∧
    (∀ s : String, s ≠ "0" →
      (t.movs (ms ++ undoMoves ms)).census s = t.census s) ∧
    (t.movs (ms ++ undoMoves ms)).count1s = t.count1s := by
  obtain ⟨a, b, hab⟩ := Tape.movs_undo ms t
  refine ⟨⟨a, b, hab⟩, ?_, ?_⟩
  · intro s hs
    rw [hab]
    simp [Tape.census, List.count_append, List.count_replicate, hs, Ne.symm hs]
  · rw [Tape.count1s_eq_census, Tape.count1s_eq_census, hab]
    simp +decide [Tape.census, List.count_append, List.count_replicate]

/-- Witness for the amended C7: the census of `"1"` and the ones count are
unchanged by moving left off a singleton tape and back. -/
theorem claim7_witness :
    Tape.census (Tape.movs ⟨[], "1", []⟩ ([Move.L] ++ undoMoves [Move.L])) "1" =
      Tape.census ⟨[], "1", []⟩ "1" ∧
    Tape.count1s (Tape.movs ⟨[], "1", []⟩ ([Move.L] ++ undoMoves [Move.L])) =
      Tape.count1s ⟨[], "1", []⟩ :=
  ⟨(claim7_amended_move_round_trip ⟨[], "1", []⟩ [Move.L]).2.1 "1" (by decide),
   (claim7_amended_move_round_trip ⟨[], "1", []⟩ [Move.L]).2.2⟩

/-- Unfolding: zero iterated steps. -/
theorem TuringMachine.stepN_zero (m : TuringMachine) : m.stepN 0 = Except.ok m := rfl

/-- Unfolding: an iterated step through a successful `step`. -/
theorem TuringMachine.stepN_succ_ok (m m1 : TuringMachine) (n : Nat)
    (h : m.step = Except.ok m1) : m.stepN (n + 1) = m1.stepN n := by
  simp [TuringMachine.stepN, h]

/-- Unfolding: an iterated step through a panicking `step`. -/
theorem TuringMachine.stepN_succ_err (m : TuringMachine)
    (e : String × TuringMachine) (n : Nat)
    (h : m.step = Except.error e) : m.stepN (n + 1) = Except.error e := by
  simp [TuringMachine.stepN, h]

/-- Unfolding: `runFuel` with no fuel left. -/
theorem TuringMachine.runFuel_zero (m : TuringMachine) :
    TuringMachine.runFuel 0 m =
      if m.state = "HALT" then some (Except.ok m) else none := rfl

/-- Unfolding: `runFuel` on an already-halted machine. -/
theorem TuringMachine.runFuel_succ_halt (fuel : Nat) (m : TuringMachine)
    (h : m.state = "HALT") :
    TuringMachine.runFuel (fuel + 1) m = some (Except.ok m) := by
  simp [TuringMachine.runFuel, h]

/-- Unfolding: `runFuel` through a successful `step`. -/
theorem TuringMachine.runFuel_succ_ok (fuel : Nat) (m m1 : TuringMachine)
    (hh : m.state ≠ "HALT") (hs : m.step = Except.ok m1) :
    TuringMachine.runFuel (fuel + 1) m = TuringMachine.runFuel fuel m1 := by
  simp [TuringMachine.runFuel, hh, hs]

/-- Unfolding: `runFuel` through a panicking `step`. -/
theorem TuringMachine.runFuel_succ_err (fuel : Nat) (m : TuringMachine)
    (e : String × TuringMachine)
    (hh : m.state ≠ "HALT") (hs : m.step = Except.error e) :
    TuringMachine.runFuel (fuel + 1) m = some (Except.error e) := by
  simp [TuringMachine.runFuel, hh, hs]

/-- When the run loop returns a machine normally, that machine is the first
iterate of `step` whose state is `"HALT"`. -/
theorem runFuel_ok_sound (fuel : Nat) :
    ∀ m m' : TuringMachine,
      TuringMachine.runFuel fuel m = some (Except.ok m') →
      m'.state = "HALT" ∧ ∃ n : Nat, n ≤ fuel ∧ m.stepN n = Except.ok m' ∧
        ∀ k : Nat, k < n → ∀ mk : TuringMachine,
          m.stepN k = Except.ok mk → mk.state ≠ "HALT" := by
  induction fuel with
  | zero =>
    intro m m' h
    rw [TuringMachine.runFuel_zero] at h
    by_cases hh : m.state = "HALT"
    · rw [if_pos hh] at h
      simp only [Option.some.injEq, Except.ok.injEq] at h
      subst h
      exact ⟨hh, 0, Nat.le_refl 0, rfl, fun k hk => absurd hk (Nat.not_lt_zero k)⟩
    · rw [if_neg hh] at h
      exact absurd h (by simp)
  | succ fuel ih =>
    intro m m' h
    by_cases hh : m.state = "HALT"
    · rw [TuringMachine.runFuel_succ_halt fuel m hh] at h
      simp only [Option.some.injEq, Except.ok.injEq] at h
      subst h
      exact ⟨hh, 0, Nat.zero_le _, rfl, fun k hk => absurd hk (Nat.not_lt_zero k)⟩
    · cases hs : m.step with
      | error e =>
        rw [TuringMachine.runFuel_succ_err fuel m e hh hs] at h
        exact absurd h (by simp)
      | ok m1 =>
        rw [TuringMachine.runFuel_succ_ok fuel m m1 hh hs] at h
        obtain ⟨hhalt, n, hn, hsn, hfirst⟩ := ih m1 m' h
        refine ⟨hhalt, n + 1, by omega, ?_, ?_⟩
        · rw [TuringMachine.stepN_succ_ok m m1 n hs]
          exact hsn
        · intro k hk mk hmk
          cases k with
          | zero =>
            rw [TuringMachine.stepN_zero] at hmk
            simp only [Except.ok.injEq] at hmk
            subst hmk
            exact hh
          | succ j =>
            rw [TuringMachine.stepN_succ_ok m m1 j hs] at hmk
            exact hfirst j (by omega) mk hmk

/-- When iterating `step` never reaches `"HALT"` (and never panics), the run
loop never claims completion, whatever the fuel: the Rust `run()` would not
terminate. -/
theorem runFuel_none_of_no_halt (fuel : Nat) :
    ∀ m : TuringMachine,
      (∀ k : Nat, ∃ mk : TuringMachine,
        m.stepN k = Except.ok mk ∧ mk.state ≠ "HALT") →
      TuringMachine.runFuel fuel m = none := by
  induction fuel with
  | zero =>
    intro m hm
    obtain ⟨m0, h0, hs0⟩ := hm 0
    rw [TuringMachine.stepN_zero] at h0
    simp only [Except.ok.injEq] at h0
    subst h0
    rw [TuringMachine.runFuel_zero, if_neg hs0]
  | succ fuel ih =>
    intro m hm
    obtain ⟨m0, h0, hs0⟩ := hm 0
    rw [TuringMachine.stepN_zero] at h0
    simp only [Except.ok.injEq] at h0
    subst h0
    obtain ⟨m1, h1, hs1⟩ := hm (0 + 1)
    have hstep : m.step = Except.ok m1 := by
      cases he : m.step with
      | error e =>
        rw [TuringMachine.stepN_succ_err m e 0 he] at h1
        exact absurd h1 (by simp)
      | ok mm =>
        rw [TuringMachine.stepN_succ_ok m mm 0 he, TuringMachine.stepN_zero] at h1
        simp only [Except.ok.injEq] at h1
        rw [h1]
    rw [TuringMachine.runFuel_succ_ok fuel m m1 hs0 hstep]
    apply ih
    intro k
    obtain ⟨mk, hk, hsk⟩ := hm (k + 1)
    rw [TuringMachine.stepN_succ_ok m m1 k hstep] at hk
    exact ⟨mk, hk, hsk⟩

/-- Claim C8: whenever the run loop terminates normally, its result is the
machine obtained by iterating `step` until the state first equals `"HALT"`;
and the loop imposes no bound of its own — if iterating `step` never reaches
`"HALT"`, no amount of fuel makes the loop claim completion. -/
theorem claim8_run_reaches_first_halt (fuel : Nat) (m : TuringMachine) :
    (∀ m' : TuringMachine, TuringMachine.runFuel fuel m = some (Except.ok m') →
      m'.state = "HALT" ∧ ∃ n : Nat, n ≤ fuel ∧ m.stepN n = Except.ok m' ∧
        ∀ k : Nat, k < n → ∀ mk : TuringMachine,
          m.stepN k = Except.ok mk → mk.state ≠ "HALT") ∧
    ((∀ k : Nat, ∃ mk : TuringMachine,
        m.stepN k = Except.ok mk ∧ mk.state ≠ "HALT") →
      TuringMachine.runFuel fuel m = none) :=
  ⟨fun m' h => runFuel_ok_sound fuel m m' h,
   fun h => runFuel_none_of_no_halt fuel m h⟩

/-- A machine that loops forever in state `"A"`, writing back the blank and
not moving; its step counter is its only changing part. -/
def loopMachine (k : Nat) : TuringMachine :=
  ⟨k, "A", [("A", [("0", ("0", Move.N, "A"))])], ⟨[], "0", []⟩⟩

/-- One step of the looping machine only bumps the counter. -/
theorem loopMachine_step (k : Nat) :
    (loopMachine k).step = Except.ok (loopMachine (k + 1)) := rfl

/-- Iterated steps of the looping machine only bump the counter. -/
theorem loopMachine_stepN (n : Nat) :
    ∀ k : Nat, (loopMachine k).stepN n = Except.ok (loopMachine (k + n)) := by
  induction n with
  | zero => intro k; rfl
  | succ j ih =>
    intro k
    rw [TuringMachine.stepN_succ_ok (loopMachine k) (loopMachine (k + 1)) j
      (loopMachine_step k), ih (k + 1)]
    have : k + 1 + j = k + (j + 1) := by omega
    rw [this]

/-- Witness for C8: the two-step flipper run reaches `"HALT"` within its
fuel, and the forever-looping machine yields no result for any fuel. -/
theorem claim8_witness :
    (∃ n : Nat, n ≤ 2 ∧
      TuringMachine.stepN
          ⟨0, "A", [("A", [("0", ("1", Move.R, "A")), ("1", ("0", Move.L, "HALT"))])],
            ⟨[], "0", ["1"]⟩⟩ n =
        Except.ok
          ⟨2, "HALT", [("A", [("0", ("1", Move.R, "A")), ("1", ("0", Move.L, "HALT"))])],
            ⟨[], "1", ["0"]⟩⟩) ∧
    TuringMachine.runFuel 5 (loopMachine 0) = none := by
  constructor
  · obtain ⟨hhalt, n, hn, hsn, hfirst⟩ :=
      (claim8_run_reaches_first_halt 2
        ⟨0, "A", [("A", [("0", ("1", Move.R, "A")), ("1", ("0", Move.L, "HALT"))])],
          ⟨[], "0", ["1"]⟩⟩).1
        ⟨2, "HALT", [("A", [("0", ("1", Move.R, "A")), ("1", ("0", Move.L, "HALT"))])],
          ⟨[], "1", ["0"]⟩⟩ (by decide)
    exact ⟨n, hn, hsn⟩
  · exact (claim8_run_reaches_first_halt 5 (loopMachine 0)).2
      (fun k => ⟨loopMachine (0 + k), loopMachine_stepN k 0, by simp +decide [loopMachine]⟩)
